import Mathlib

/-!
Verification of the age test-vector generator (package testkit) and the
age plugin client (internal/plugin/client.go).

Byte strings are modelled as `List Nat` (each entry a byte value).
External cryptographic primitives (SHA-256 based HKDF and HMAC,
ChaCha20-Poly1305, X25519, scrypt) live outside this repository; they are
abstracted as a `Crypto` bundle of functions and every theorem quantifies
over the bundle, so only the repository's own composition of the
primitives is asserted.
-/

set_option maxRecDepth 16000

namespace Age

/-- Newline byte. -/
def byteLF : Nat := 10

/-- Space byte. -/
def byteSpace : Nat := 32

/-- The two bytes of the stanza prefix token, an ASCII dash and greater-than sign. -/
def bytesArrow : List Nat := [45, 62]

/-- The three ASCII dash bytes of the header end marker. -/
def bytesEndMarker : List Nat := [45, 45, 45]

/-- ASCII bytes of the HKDF info label for the header HMAC key. -/
def infoHeader : List Nat := [104, 101, 97, 100, 101, 114]

/-- ASCII bytes of the HKDF info label for the payload stream key. -/
def infoPayload : List Nat := [112, 97, 121, 108, 111, 97, 100]

/-- ASCII bytes of the X25519 stanza type token. -/
def typeX25519 : List Nat := [88, 50, 53, 53, 49, 57]

/-- ASCII bytes of the scrypt stanza type token. -/
def typeScrypt : List Nat := [115, 99, 114, 121, 112, 116]

/-- ASCII bytes of the X25519 HKDF info label, age-encryption.org slash v1 slash X25519. -/
def infoX25519 : List Nat :=
  [97, 103, 101, 45, 101, 110, 99, 114, 121, 112, 116, 105, 111, 110, 46,
   111, 114, 103, 47, 118, 49, 47, 88, 50, 53, 53, 49, 57]

/-- ASCII bytes of the scrypt salt label, age-encryption.org slash v1 slash scrypt. -/
def infoScrypt : List Nat :=
  [97, 103, 101, 45, 101, 110, 99, 114, 121, 112, 116, 105, 111, 110, 46,
   111, 114, 103, 47, 118, 49, 47, 115, 99, 114, 121, 112, 116]

/-- The standard base64 alphabet as byte values: the 26 uppercase letters,
the 26 lowercase letters, the 10 digits, plus and slash. -/
def b64alphabet : List Nat :=
  (List.range 26).map (65 + ·) ++ (List.range 26).map (97 + ·) ++
  (List.range 10).map (48 + ·) ++ [43, 47]

/-- Byte of the base64 alphabet at a 6-bit index. -/
def b64char (n : Nat) : Nat := b64alphabet.getD n 0

/-- Unpadded standard base64 of a byte string (Go base64.RawStdEncoding),
as the byte values of the encoded characters. -/
def b64encode : List Nat → List Nat
  | a :: b :: c :: rest =>
    b64char (a / 4) :: b64char (a % 4 * 16 + b / 16) ::
    b64char (b % 16 * 4 + c / 64) :: b64char (c % 64) :: b64encode rest
  | [a, b] => [b64char (a / 4), b64char (a % 4 * 16 + b / 16), b64char (b % 16 * 4)]
  | [a] => [b64char (a / 4), b64char (a % 4 * 16)]
  | [] => []

/-- Decimal digit bytes of a natural number, most significant first
(Go strconv.Itoa on a non-negative value). -/
def itoa (n : Nat) : List Nat :=
  if h : n < 10 then [48 + n]
  else itoa (n / 10) ++ [48 + n % 10]
decreasing_by exact Nat.div_lt_self (by omega) (by omega)

/-- Abstraction of the external cryptographic primitives used by the
generator. `x25519 scalar point` returns `none` exactly when the
underlying library function reports an all-zero result (x/crypto
curve25519.X25519 then returns a nil slice and an error); `scryptKey`
returns `none` when x/crypto scrypt.Key reports invalid parameters. -/
structure Crypto where
  hkdfSHA256 : List Nat → List Nat → List Nat → Nat → List Nat
  hmacSHA256 : List Nat → List Nat → List Nat
  chacha20poly1305Seal : List Nat → List Nat → List Nat → List Nat
  x25519 : List Nat → List Nat → Option (List Nat)
  scryptKey : List Nat → List Nat → Nat → Nat → Nat → Nat → Option (List Nat)

/-- The Curve25519 base point: byte 9 followed by 31 zero bytes. -/
def basepoint : List Nat := 9 :: List.replicate 31 0

/-- State of the test-vector generator (struct TestFile). The Go Rand
closure, a deterministic byte source, is modelled by the `rand` byte
stream from which requests are taken in order. -/
structure TestFile where
  buf : List Nat := []
  rand : List Nat := []
  fileKey : List Nat := []
  streamKey : List Nat := []
  nonce : List Nat := List.replicate 12 0
  payload : List Nat := []
  identities : List (List Nat) := []
  passphrases : List (List Nat) := []
deriving DecidableEq

namespace TestFile

/-- f.Rand(n): take the next n bytes of the deterministic source. -/
def Rand (f : TestFile) (n : Nat) : List Nat × TestFile :=
  (f.rand.take n, { f with rand := f.rand.drop n })

/-- TestFile.TextLine: append the bytes of s and a newline to Buf. -/
def TextLine (f : TestFile) (s : List Nat) : TestFile :=
  { f with buf := f.buf ++ s ++ [byteLF] }

/-- TestFile.ArgsLine: the arrow token and the arguments joined by single
spaces, as one text line. -/
def ArgsLine (f : TestFile) (args : List (List Nat)) : TestFile :=
  f.TextLine (List.intercalate [byteSpace] (bytesArrow :: args))

/-- TestFile.Body: wrap a byte string into base64 lines of 48-byte
chunks; every line but the last holds exactly 48 bytes, and the loop
emits one final short line (empty when the length is a multiple of 48). -/
def Body (f : TestFile) (body : List Nat) : TestFile :=
  let line := if body.length > 48 then body.take 48 else body
  let f2 := f.TextLine (b64encode line)
  if line.length < 48 then f2
  else Body f2 (body.drop line.length)
termination_by body.length
decreasing_by
  rename_i h
  have h2 : ¬ (if body.length > 48 then List.take 48 body else body).length < 48 := h
  simp only [dite_eq_ite]
  by_cases hb : body.length > 48
  · rw [if_pos hb] at h2 ⊢
    simp only [List.length_drop, List.length_take] at *
    omega
  · rw [if_neg hb] at h2 ⊢
    simp only [List.length_drop]
    omega

/-- TestFile.Stanza: an arguments line followed by a wrapped body. -/
def Stanza (f : TestFile) (args : List (List Nat)) (body : List Nat) : TestFile :=
  (f.ArgsLine args).Body body

/-- TestFile.AEADBody: ChaCha20-Poly1305 seal of body under key with an
all-zero 12-byte nonce, emitted as a wrapped body. -/
def AEADBody (C : Crypto) (f : TestFile) (key body : List Nat) : TestFile :=
  f.Body (C.chacha20poly1305Seal key (List.replicate 12 0) body)

/-- TestFile.X25519NoRecordIdentity: emit an X25519 recipient stanza.
Errors of the library X25519 calls are discarded (the Go code binds them
to the blank identifier), so a rejected shared secret degrades to the
nil (empty) byte string. -/
def X25519NoRecordIdentity (C : Crypto) (f : TestFile) (identity : List Nat) : TestFile :=
  let recipient := (C.x25519 identity basepoint).getD []
  let (ephemeral, f) := f.Rand 32
  let share := (C.x25519 ephemeral basepoint).getD []
  let f := f.ArgsLine [typeX25519, b64encode share]
  let secret := (C.x25519 ephemeral recipient).getD []
  let key := C.hkdfSHA256 secret (share ++ recipient) infoX25519 32
  AEADBody C f key f.fileKey

/-- TestFile.ScryptNoRecordPassphrase: emit a scrypt recipient stanza.
The Go work factor is an int used as a shift count; it is modelled as a
natural number with two to its power as the scrypt N parameter. -/
def ScryptNoRecordPassphrase (C : Crypto) (f : TestFile) (passphrase : List Nat)
    (workFactor : Nat) : TestFile :=
  let (salt, f) := f.Rand 16
  let f := f.ArgsLine [typeScrypt, b64encode salt, itoa workFactor]
  let key := (C.scryptKey passphrase (infoScrypt ++ salt) (2 ^ workFactor) 8 1 32).getD []
  AEADBody C f key f.fileKey

/-- TestFile.HMACLine: the end marker, a space, and the base64 of h, as
one text line. -/
def HMACLine (f : TestFile) (h : List Nat) : TestFile :=
  f.TextLine (bytesEndMarker ++ [byteSpace] ++ b64encode h)

/-- TestFile.HMAC: derive the header HMAC key by HKDF from the file key
with nil salt and the header info label, take the HMAC of the current
buffer followed by the three end-marker bytes, and emit the HMAC line. -/
def HMAC (C : Crypto) (f : TestFile) : TestFile :=
  let key := C.hkdfSHA256 f.fileKey [] infoHeader 32
  f.HMACLine (C.hmacSHA256 key (f.buf ++ bytesEndMarker))

/-- TestFile.Nonce: derive the stream key from the file key with the
nonce as salt and the payload info label, and write the nonce bytes. -/
def Nonce (C : Crypto) (f : TestFile) (nonce : List Nat) : TestFile :=
  { f with streamKey := C.hkdfSHA256 f.fileKey nonce infoPayload 32,
           buf := f.buf ++ nonce }

/-- TestFile.PayloadChunk: seal the plaintext under the stream key with
the current 12-byte nonce, then increment nonce byte 10 with wrapping
byte arithmetic. -/
def PayloadChunk (C : Crypto) (f : TestFile) (plaintext : List Nat) : TestFile :=
  { f with payload := f.payload ++ plaintext,
           buf := f.buf ++ C.chacha20poly1305Seal f.streamKey f.nonce plaintext,
           nonce := f.nonce.set 10 ((f.nonce.getD 10 0 + 1) % 256) }

/-- TestFile.PayloadChunkFinal: set nonce byte 11 to one, then seal the
plaintext under the stream key with that nonce. -/
def PayloadChunkFinal (C : Crypto) (f : TestFile) (plaintext : List Nat) : TestFile :=
  let f := { f with payload := f.payload ++ plaintext, nonce := f.nonce.set 11 1 }
  { f with buf := f.buf ++ C.chacha20poly1305Seal f.streamKey f.nonce plaintext }

end TestFile

/-- Go strings.IndexByte: index of the first occurrence of b in l
starting from accumulator i, or minus one. -/
def indexByteAux (l : List Nat) (b : Nat) (i : Nat) : Int :=
  match l with
  | [] => -1
  | c :: r => if c = b then (i : Int) else indexByteAux r b (i + 1)

/-- Go strings.IndexByte over a byte string. -/
def indexByte (l : List Nat) (b : Nat) : Int := indexByteAux l b 0

/-- testkit.NotCanonicalBase64: replace the last character of s by the
next character of the base64 alphabet. `none` models a Go runtime panic
from an out-of-range string index: indexing the empty s, or indexing the
alphabet past its end. -/
def NotCanonicalBase64 (s : List Nat) : Option (List Nat) :=
  match s.getLast? with
  | none => none
  | some last =>
    let idx := indexByte b64alphabet last
    match b64alphabet.get? (idx + 1).toNat with
    | none => none
    | some c => some (s.dropLast ++ [c])

/-- Helper for strconv.Atoi: accumulate decimal digit bytes; any
non-digit byte is an error. -/
def decVal : List Nat → Nat → Option Nat
  | [], acc => some acc
  | c :: r, acc =>
    if 48 ≤ c ∧ c ≤ 57 then decVal r (acc * 10 + (c - 48)) else none

/-- Go strconv.Atoi on a byte string: optional sign, at least one
decimal digit, no other characters, 64-bit signed range. `none` is the
error return. -/
def atoi (s : List Nat) : Option Int :=
  let signed : Bool × List Nat :=
    match s with
    | 43 :: r => (false, r)
    | 45 :: r => (true, r)
    | r => (false, r)
  match decVal signed.2 0 with
  | none => none
  | some v =>
    if signed.2.length = 0 then none
    else
      let i : Int := if signed.1 then -(v : Int) else (v : Int)
      if -(2 ^ 63) ≤ i ∧ i < 2 ^ 63 then some i else none

/-- A wire stanza of the plugin protocol (internal/format Stanza):
type token, argument tokens, body bytes, all as byte strings. -/
structure PStanza where
  type : List Nat := []
  args : List (List Nat) := []
  body : List Nat := []
deriving DecidableEq

/-- A collected header stanza (age.Stanza). -/
structure AgeStanza where
  type : List Nat := []
  args : List (List Nat) := []
  body : List Nat := []
deriving DecidableEq

/-- ASCII bytes of the msg stanza type. -/
def typeMsg : List Nat := [109, 115, 103]

/-- ASCII bytes of the request-secret stanza type. -/
def typeRequestSecret : List Nat :=
  [114, 101, 113, 117, 101, 115, 116, 45, 115, 101, 99, 114, 101, 116]

/-- ASCII bytes of the request-public stanza type. -/
def typeRequestPublic : List Nat :=
  [114, 101, 113, 117, 101, 115, 116, 45, 112, 117, 98, 108, 105, 99]

/-- ASCII bytes of the recipient-stanza stanza type. -/
def typeRecipientStanza : List Nat :=
  [114, 101, 99, 105, 112, 105, 101, 110, 116, 45, 115, 116, 97, 110, 122, 97]

/-- ASCII bytes of the error stanza type. -/
def typeError : List Nat := [101, 114, 114, 111, 114]

/-- ASCII bytes of the done stanza type. -/
def typeDone : List Nat := [100, 111, 110, 101]

/-- ASCII bytes of the file-key stanza type. -/
def typeFileKey : List Nat := [102, 105, 108, 101, 45, 107, 101, 121]

/-- ASCII bytes of the ok stanza type. -/
def typeOk : List Nat := [111, 107]

/-- ASCII bytes of the fail stanza type. -/
def typeFail : List Nat := [102, 97, 105, 108]

/-- ASCII bytes of the unsupported stanza type. -/
def typeUnsupported : List Nat :=
  [117, 110, 115, 117, 112, 112, 111, 114, 116, 101, 100]

/-- The ok response stanza. -/
def okStanza : PStanza := { type := typeOk }

/-- An ok response stanza carrying a requested value. -/
def okStanzaWith (body : List Nat) : PStanza := { type := typeOk, body := body }

/-- The fail response stanza. -/
def failStanza : PStanza := { type := typeFail }

/-- The unsupported response stanza. -/
def unsupportedStanza : PStanza := { type := typeUnsupported }

/-- A done stanza as sent by the plugin. -/
def doneStanza : PStanza := { type := typeDone }

/-- The distinct error returns of the plugin client, abstracting the Go
error strings and age.ErrIncorrectIdentity. `readError` models a failed
format.StanzaReader.ReadStanza, here an exhausted plugin stream. -/
inductive PluginError where
  | malformedRecipientStanza
  | malformedFileKey
  | duplicatedFileKey
  | pluginFailure (body : List Nat)
  | readError
  | emptyPluginResponse
  | incorrectIdentity
deriving DecidableEq

/-- The user callbacks configured on a plugin Recipient or Identity.
`none` models a nil Go callback; the `Except Unit` error mirrors a
non-nil error return of the callback. -/
structure Callbacks where
  displayMessage : Option (List Nat → Except Unit Unit) := none
  requestValue : Option (List Nat → Bool → Except Unit (List Nat)) := none

/-- Phase 2 of Recipient.Wrap: the ReadLoop of client.go, consuming the
plugin's stanza stream, with `acc` the stanzas collected so far. Returns
the responses marshaled back to the plugin and either the collected
stanzas at done or the error that aborted the loop. -/
def wrapPhase2 (r : Callbacks) (acc : List AgeStanza) :
    List PStanza → List PStanza × Except PluginError (List AgeStanza)
  | [] => ([], .error .readError)
  | s :: rest =>
    if s.type = typeMsg then
      match r.displayMessage with
      | none =>
        let p := wrapPhase2 r acc rest
        (failStanza :: p.1, p.2)
      | some cb =>
        match cb s.body with
        | .error _ =>
          let p := wrapPhase2 r acc rest
          (failStanza :: p.1, p.2)
        | .ok _ =>
          let p := wrapPhase2 r acc rest
          (okStanza :: p.1, p.2)
    else if s.type = typeRequestSecret ∨ s.type = typeRequestPublic then
      match r.requestValue with
      | none =>
        let p := wrapPhase2 r acc rest
        (failStanza :: p.1, p.2)
      | some cb =>
        match cb s.body (decide (s.type = typeRequestSecret)) with
        | .error _ =>
          let p := wrapPhase2 r acc rest
          (failStanza :: p.1, p.2)
        | .ok secret =>
          let p := wrapPhase2 r acc rest
          (okStanzaWith secret :: p.1, p.2)
    else if s.type = typeRecipientStanza then
      if s.args.length < 2 then ([], .error .malformedRecipientStanza)
      else
        match atoi (s.args.getD 0 []) with
        | none => ([], .error .malformedRecipientStanza)
        | some n =>
          if n ≠ 0 then ([], .error .malformedRecipientStanza)
          else
            let p := wrapPhase2 r
              (acc ++ [{ type := s.args.getD 1 [], args := s.args.drop 2,
                         body := s.body }]) rest
            (okStanza :: p.1, p.2)
    else if s.type = typeError then ([okStanza], .error (.pluginFailure s.body))
    else if s.type = typeDone then ([], .ok acc)
    else
      let p := wrapPhase2 r acc rest
      (unsupportedStanza :: p.1, p.2)

/-- Recipient.Wrap from the plugin's responses on: run the ReadLoop with
nothing collected, then reject an empty collection. -/
def RecipientWrap (r : Callbacks) (input : List PStanza) :
    List PStanza × Except PluginError (List AgeStanza) :=
  let p := wrapPhase2 r [] input
  match p.2 with
  | .ok stanzas =>
    (p.1, if stanzas.length = 0 then .error .emptyPluginResponse else .ok stanzas)
  | .error e => (p.1, .error e)

/-- Phase 2 of Identity.Unwrap: the ReadLoop of client.go, with
`fileKey` the Go fileKey local (none models the nil slice before any
file-key stanza was accepted). -/
def unwrapPhase2 (i : Callbacks) (fileKey : Option (List Nat)) :
    List PStanza → List PStanza × Except PluginError (Option (List Nat))
  | [] => ([], .error .readError)
  | s :: rest =>
    if s.type = typeMsg then
      match i.displayMessage with
      | none =>
        let p := unwrapPhase2 i fileKey rest
        (failStanza :: p.1, p.2)
      | some cb =>
        match cb s.body with
        | .error _ =>
          let p := unwrapPhase2 i fileKey rest
          (failStanza :: p.1, p.2)
        | .ok _ =>
          let p := unwrapPhase2 i fileKey rest
          (okStanza :: p.1, p.2)
    else if s.type = typeRequestSecret ∨ s.type = typeRequestPublic then
      match i.requestValue with
      | none =>
        let p := unwrapPhase2 i fileKey rest
        (failStanza :: p.1, p.2)
      | some cb =>
        match cb s.body (decide (s.type = typeRequestSecret)) with
        | .error _ =>
          let p := unwrapPhase2 i fileKey rest
          (failStanza :: p.1, p.2)
        | .ok secret =>
          let p := unwrapPhase2 i fileKey rest
          (okStanzaWith secret :: p.1, p.2)
    else if s.type = typeFileKey then
      if s.args.length ≠ 1 then ([], .error .malformedFileKey)
      else
        match atoi (s.args.getD 0 []) with
        | none => ([], .error .malformedFileKey)
        | some n =>
          if n ≠ 0 then ([], .error .malformedFileKey)
          else if fileKey.isSome then ([], .error .duplicatedFileKey)
          else
            let p := unwrapPhase2 i (some s.body) rest
            (okStanza :: p.1, p.2)
    else if s.type = typeError then ([okStanza], .error (.pluginFailure s.body))
    else if s.type = typeDone then ([], .ok fileKey)
    else
      let p := unwrapPhase2 i fileKey rest
      (unsupportedStanza :: p.1, p.2)

/-- Identity.Unwrap from the plugin's responses on: run the ReadLoop
with a nil file key, then map a still-nil file key to the
incorrect-identity error. -/
def IdentityUnwrap (i : Callbacks) (input : List PStanza) :
    List PStanza × Except PluginError (List Nat) :=
  let p := unwrapPhase2 i none input
  match p.2 with
  | .ok none => (p.1, .error .incorrectIdentity)
  | .ok (some fk) => (p.1, .ok fk)
  | .error e => (p.1, .error e)

/-- The base64 lines produced for a wrapped body: 48-byte chunks, with a
final short chunk of fewer than 48 bytes (possibly empty). -/
def bodyLines (body : List Nat) : List (List Nat) :=
  if body.length < 48 then [b64encode body]
  else b64encode (body.take 48) :: bodyLines (body.drop 48)
termination_by body.length
decreasing_by simp only [List.length_drop]; omega

/-- The wire bytes of a wrapped body: each base64 line followed by a
newline. -/
def bodyWire (body : List Nat) : List Nat :=
  ((bodyLines body).map (· ++ [byteLF])).flatten

/-- A concrete crypto bundle for witnesses: HKDF and scrypt return a
zero key, the HMAC is the message itself, the AEAD seal is the
plaintext, X25519 returns a fixed nonzero point. -/
def cETrivial : Crypto where
  hkdfSHA256 := fun _ _ _ n => List.replicate n 0
  hmacSHA256 := fun _ msg => msg
  chacha20poly1305Seal := fun _ _ plaintext => plaintext
  x25519 := fun _ _ => some (List.replicate 32 1)
  scryptKey := fun _ _ _ _ _ _ => some (List.replicate 32 0)

/-- A crypto bundle whose AEAD seal returns the nonce it was given, to
observe which nonce a chunk was sealed with. -/
def cENonce : Crypto :=
  { cETrivial with chacha20poly1305Seal := fun _ nonce _ => nonce }

/-- A crypto bundle whose X25519 always reports the all-zero result
(returning the library's nil-plus-error outcome). -/
def cEZeroShare : Crypto :=
  { cETrivial with x25519 := fun _ _ => none }

/-- A concrete generator state with empty buffer and byte source and the
default zero nonce. -/
def file0 : TestFile := {}

/-- Iterated non-final payload chunks: fold TestFile.PayloadChunk over a
list of chunk plaintexts. -/
def chunksFold (C : Crypto) (f : TestFile) (pts : List (List Nat)) : TestFile :=
  pts.foldl (fun g pt => TestFile.PayloadChunk C g pt) f

/-- The 11-byte big-endian counter value read off a 12-byte chunk nonce. -/
def beCounter (nonce : List Nat) : Nat :=
  (nonce.take 11).foldl (fun a b => a * 256 + b) 0

/-- Big-endian bytes of a natural number in a fixed width. -/
def beBytes : Nat → Nat → List Nat
  | 0, _ => []
  | w + 1, n => beBytes w (n / 256) ++ [n % 256]

theorem b64encode_length (l : List Nat) :
    (b64encode l).length =
      4 * (l.length / 3) + (if l.length % 3 = 0 then 0 else l.length % 3 + 1) := by
  match l with
  | a :: b :: c :: rest =>
    have ih := b64encode_length rest
    simp only [b64encode, List.length_cons]
    have hm : (rest.length + 1 + 1 + 1) % 3 = rest.length % 3 := by omega
    have hd : (rest.length + 1 + 1 + 1) / 3 = rest.length / 3 + 1 := by omega
    rw [hm, hd]
    omega
  | [a, b] => simp [b64encode]
  | [a] => simp [b64encode]
  | [] => simp [b64encode]

theorem Body_short (f : TestFile) (b : List Nat) (h : b.length < 48) :
    TestFile.Body f b = f.TextLine (b64encode b) := by
  rw [TestFile.Body]
  have h1 : ¬ b.length > 48 := by omega
  simp [h1, h]

theorem Body_step (f : TestFile) (b : List Nat) (h : 48 ≤ b.length) :
    TestFile.Body f b =
      TestFile.Body (f.TextLine (b64encode (b.take 48))) (b.drop 48) := by
  rw [TestFile.Body]
  by_cases hgt : b.length > 48
  · have h1 : (b.take 48).length = 48 := by
      simp only [List.length_take]; omega
    simp [hgt, h1]
  · have heq : b.length = 48 := by omega
    have htake : b.take 48 = b := List.take_of_length_le (by omega)
    simp [hgt, htake, heq]

theorem bodyLines_eq (b : List Nat) :
    bodyLines b =
      if b.length < 48 then [b64encode b]
      else b64encode (b.take 48) :: bodyLines (b.drop 48) := by
  rw [bodyLines]

theorem Body_buf (f : TestFile) (b : List Nat) :
    (TestFile.Body f b).buf = f.buf ++ bodyWire b := by
  by_cases h : b.length < 48
  · rw [Body_short f b h, bodyWire, bodyLines_eq, if_pos h]
    simp [TestFile.TextLine]
  · rw [Body_step f b (by omega), Body_buf (f.TextLine (b64encode (b.take 48))) (b.drop 48)]
    conv_rhs => rw [bodyWire, bodyLines_eq b, if_neg h]
    simp [TestFile.TextLine, bodyWire]
termination_by b.length
decreasing_by simp only [List.length_drop]; omega

theorem bodyLines_length (b : List Nat) :
    (bodyLines b).length = b.length / 48 + 1 := by
  by_cases h : b.length < 48
  · rw [bodyLines_eq, if_pos h]
    simp [Nat.div_eq_of_lt h]
  · rw [bodyLines_eq, if_neg h, List.length_cons, bodyLines_length (b.drop 48)]
    simp only [List.length_drop]
    omega
termination_by b.length
decreasing_by simp only [List.length_drop]; omega

theorem bodyLines_getD (b : List Nat) (i : Nat) (h : i < b.length / 48) :
    (bodyLines b).getD i [] = b64encode ((b.drop (48 * i)).take 48) := by
  by_cases h48 : b.length < 48
  · exact absurd h (by simp [Nat.div_eq_of_lt h48])
  · rw [bodyLines_eq, if_neg h48]
    match i with
    | 0 => simp
    | j + 1 =>
      have hj : j < (b.drop 48).length / 48 := by
        simp only [List.length_drop]
        omega
      rw [List.getD_cons_succ, bodyLines_getD (b.drop 48) j hj, List.drop_drop]
      have hidx : 48 + 48 * j = 48 * (j + 1) := by omega
      rw [hidx]
termination_by b.length
decreasing_by simp only [List.length_drop]; omega

theorem bodyLines_last (b : List Nat) :
    (bodyLines b).getD (b.length / 48) [] =
      b64encode (b.drop (48 * (b.length / 48))) := by
  by_cases h48 : b.length < 48
  · rw [bodyLines_eq, if_pos h48]
    simp [Nat.div_eq_of_lt h48]
  · rw [bodyLines_eq, if_neg h48]
    have hdiv : b.length / 48 = (b.length - 48) / 48 + 1 := by omega
    rw [hdiv, List.getD_cons_succ]
    have hrec := bodyLines_last (b.drop 48)
    simp only [List.length_drop] at hrec
    rw [hrec, List.drop_drop]
    have hidx : 48 + 48 * ((b.length - 48) / 48) = 48 * (b.length / 48) := by omega
    rw [hidx, hdiv]
termination_by b.length
decreasing_by simp only [List.length_drop]; omega

/-- Claim C6: for every byte string b, TestFile.Body writes the bytes of
floor(len b / 48) lines of exactly 64 base64 characters followed by
exactly one final short line of fewer than 64 characters encoding the
remaining len b mod 48 bytes; when 48 divides len b (including the empty
string) the final line is empty. -/
theorem body_line_structure (f : TestFile) (b : List Nat) :
    (TestFile.Body f b).buf = f.buf ++ ((bodyLines b).map (· ++ [byteLF])).flatten
    ∧ (bodyLines b).length = b.length / 48 + 1
    ∧ (∀ i, i < b.length / 48 → ((bodyLines b).getD i []).length = 64)
    ∧ (bodyLines b).getD (b.length / 48) [] = b64encode (b.drop (48 * (b.length / 48)))
    ∧ (b.drop (48 * (b.length / 48))).length = b.length % 48
    ∧ ((bodyLines b).getD (b.length / 48) []).length < 64
    ∧ (48 ∣ b.length → (bodyLines b).getD (b.length / 48) [] = []) := by
  have hdroplen : (b.drop (48 * (b.length / 48))).length = b.length % 48 := by
    simp only [List.length_drop]
    omega
  refine ⟨Body_buf f b, bodyLines_length b, ?_, bodyLines_last b, hdroplen, ?_, ?_⟩
  · intro i hi
    rw [bodyLines_getD b i hi]
    have hlen : ((b.drop (48 * i)).take 48).length = 48 := by
      simp only [List.length_take, List.length_drop]
      omega
    rw [b64encode_length, hlen]
    decide
  · rw [bodyLines_last b, b64encode_length, hdroplen]
    have : b.length % 48 < 48 := Nat.mod_lt _ (by omega)
    split <;> omega
  · intro hdvd
    rw [bodyLines_last b]
    have h0 : (b.drop (48 * (b.length / 48))).length = 0 := by
      rw [hdroplen]
      omega
    rw [List.length_eq_zero.mp h0]
    rfl

/-- Witness for claim C6 at a 48-byte input: the single full line has 64
characters and the final line is empty. -/
theorem body_line_structure_witness :
    ((bodyLines (List.replicate 48 0)).getD 0 []).length = 64
    ∧ (bodyLines (List.replicate 48 0)).getD 1 [] = [] := by
  obtain ⟨-, -, h3, -, -, -, h7⟩ := body_line_structure file0 (List.replicate 48 0)
  exact ⟨h3 0 (by decide), by simpa using h7 (by decide)⟩

/-- Claim C1, amended: TestFile.HMAC appends the line of the three
end-marker bytes, a space and the base64 HMAC, where the HMAC is keyed
with HKDF-SHA256(ikm = file key, salt = empty, info = header) and taken
over the header bytes up to and including the three end-marker bytes
only: the space that follows the marker on the HMAC line is not part of
the covered bytes. -/
theorem hmac_line_and_message (C : Crypto) (f : TestFile) :
    (TestFile.HMAC C f).buf =
      f.buf ++ bytesEndMarker ++ [byteSpace] ++
        b64encode (C.hmacSHA256 (C.hkdfSHA256 f.fileKey [] infoHeader 32)
          (f.buf ++ bytesEndMarker)) ++ [byteLF] := by
  simp [TestFile.HMAC, TestFile.HMACLine, TestFile.TextLine, List.append_assoc]

/-- Counterexample to claim C1 as stated: with an HMAC primitive that
returns its message and an empty starting buffer, the line TestFile.HMAC
appends differs from the line the claim describes, because the claim
also covers the space that precedes the base64 value. -/
theorem hmac_space_counterexample :
    (TestFile.HMAC cETrivial file0).buf ≠
      file0.buf ++ bytesEndMarker ++ [byteSpace] ++
        b64encode (cETrivial.hmacSHA256
          (cETrivial.hkdfSHA256 file0.fileKey [] infoHeader 32)
          (file0.buf ++ bytesEndMarker ++ [byteSpace])) ++ [byteLF] := by
  decide

theorem nonce_getD10 (c fl : Nat) :
    (List.replicate 10 0 ++ [c, fl]).getD 10 0 = c := rfl

theorem nonce_set10 (c fl v : Nat) :
    (List.replicate 10 0 ++ [c, fl]).set 10 v = List.replicate 10 0 ++ [v, fl] := rfl

theorem nonce_set11 (c fl v : Nat) :
    (List.replicate 10 0 ++ [c, fl]).set 11 v = List.replicate 10 0 ++ [c, v] := rfl

theorem chunksFold_nonce (C : Crypto) (pts : List (List Nat)) (f : TestFile) (c : Nat)
    (hc : c < 256) (h : f.nonce = List.replicate 10 0 ++ [c, 0]) :
    (chunksFold C f pts).nonce = List.replicate 10 0 ++ [(c + pts.length) % 256, 0] := by
  induction pts generalizing f c with
  | nil =>
    simp only [chunksFold, List.foldl_nil, List.length_nil]
    rw [h]
    have hz : (c + 0) % 256 = c := by omega
    rw [hz]
  | cons pt rest ih =>
    simp only [chunksFold, List.foldl_cons, List.length_cons] at *
    have h1 : (TestFile.PayloadChunk C f pt).nonce = List.replicate 10 0 ++ [(c + 1) % 256, 0] := by
      show f.nonce.set 10 ((f.nonce.getD 10 0 + 1) % 256) = _
      rw [h, nonce_getD10, nonce_set10]
    rw [ih (TestFile.PayloadChunk C f pt) ((c + 1) % 256) (Nat.mod_lt _ (by omega)) h1]
    have harith : ((c + 1) % 256 + rest.length) % 256 = (c + (rest.length + 1)) % 256 := by
      rw [Nat.mod_add_mod]
      congr 1
      omega
    rw [harith]

theorem beCounter_explicit (c fl : Nat) :
    beCounter (List.replicate 10 0 ++ [c, fl]) = c := by
  show List.foldl (fun a b => a * 256 + b) 0 [0, 0, 0, 0, 0, 0, 0, 0, 0, 0, c] = c
  simp [List.foldl]

theorem beBytes_zero (w : Nat) : beBytes w 0 = List.replicate w 0 := by
  induction w with
  | zero => rfl
  | succ v ih =>
    rw [beBytes, Nat.zero_div, Nat.zero_mod, ih, List.replicate_succ']

theorem beBytes_small (w n : Nat) (h : n < 256) :
    beBytes (w + 1) n = List.replicate w 0 ++ [n] := by
  rw [beBytes, Nat.div_eq_of_lt h, Nat.mod_eq_of_lt h, beBytes_zero]

/-- Claim C2, amended: for a stream of fewer than 256 non-final chunks
started on a fresh all-zero nonce, every call to PayloadChunk seals its
plaintext with the nonce made of the 11-byte big-endian counter equal to
the number of preceding chunks followed by a zero last-flag byte, and
after k calls the chunk written by PayloadChunkFinal is sealed with the
11-byte big-endian counter k followed by a one last-flag byte. For 256
or more non-final chunks the counter byte wraps and the claim fails. -/
theorem chunk_nonce_counter (C : Crypto) (f : TestFile) (pts : List (List Nat))
    (h : f.nonce = List.replicate 12 0) (hk : pts.length < 256) :
    (∀ i pt, i < pts.length →
        (TestFile.PayloadChunk C (chunksFold C f (pts.take i)) pt).buf
          = (chunksFold C f (pts.take i)).buf
            ++ C.chacha20poly1305Seal (chunksFold C f (pts.take i)).streamKey
                 (beBytes 11 i ++ [0]) pt)
    ∧ (∀ pt, (TestFile.PayloadChunkFinal C (chunksFold C f pts) pt).buf
          = (chunksFold C f pts).buf
            ++ C.chacha20poly1305Seal (chunksFold C f pts).streamKey
                 (beBytes 11 pts.length ++ [1]) pt) := by
  have h0 : f.nonce = List.replicate 10 0 ++ [0, 0] := h
  constructor
  · intro i pt hi
    have htake : (pts.take i).length = i := by
      simp only [List.length_take]
      omega
    have hnonce := chunksFold_nonce C (pts.take i) f 0 (by omega) h0
    rw [htake, Nat.zero_add, Nat.mod_eq_of_lt (by omega)] at hnonce
    show (chunksFold C f (pts.take i)).buf
        ++ C.chacha20poly1305Seal (chunksFold C f (pts.take i)).streamKey
             (chunksFold C f (pts.take i)).nonce pt = _
    rw [hnonce, beBytes_small 10 i (by omega)]
    simp [List.append_assoc]
  · intro pt
    have hnonce := chunksFold_nonce C pts f 0 (by omega) h0
    rw [Nat.zero_add, Nat.mod_eq_of_lt hk] at hnonce
    show (chunksFold C f pts).buf
        ++ C.chacha20poly1305Seal (chunksFold C f pts).streamKey
             ((chunksFold C f pts).nonce.set 11 1) pt = _
    rw [hnonce, nonce_set11, beBytes_small 10 pts.length hk]
    simp [List.append_assoc]

/-- Witness for claim C2 (amended) with two empty chunks: the second
chunk is sealed with counter 1 and the final chunk with counter 2. -/
theorem chunk_nonce_counter_witness :
    (TestFile.PayloadChunk cETrivial (chunksFold cETrivial file0 ([[], []].take 1)) []).buf
      = (chunksFold cETrivial file0 ([[], []].take 1)).buf
        ++ cETrivial.chacha20poly1305Seal (chunksFold cETrivial file0 ([[], []].take 1)).streamKey
             (beBytes 11 1 ++ [0]) []
    ∧ (TestFile.PayloadChunkFinal cETrivial (chunksFold cETrivial file0 [[], []]) []).buf
      = (chunksFold cETrivial file0 [[], []]).buf
        ++ cETrivial.chacha20poly1305Seal (chunksFold cETrivial file0 [[], []]).streamKey
             (beBytes 11 ([[], []] : List (List Nat)).length ++ [1]) [] := by
  obtain ⟨h1, h2⟩ := chunk_nonce_counter cETrivial file0 [[], []] rfl (by decide)
  exact ⟨h1 1 [] (by decide), h2 []⟩

/-- Counterexample to claim C2 as stated: after 256 calls to
PayloadChunk from a fresh state, the nonce the final chunk is sealed
with carries big-endian counter value 0, not 256. -/
theorem chunk_nonce_counter_counterexample :
    (TestFile.PayloadChunkFinal cETrivial
        (chunksFold cETrivial file0 (List.replicate 256 [])) []).nonce
      = List.replicate 10 0 ++ [0, 1]
    ∧ beCounter (List.replicate 10 0 ++ [0, 1])
        ≠ (List.replicate 256 ([] : List Nat)).length := by
  constructor
  · decide
  · decide

/-- Claim C9: TestFile.PayloadChunk increments only nonce byte 10 with
wrapping byte arithmetic and never carries into bytes 0 through 9, so
from a fresh state the counter byte is the chunk count modulo 256 (after
256 non-final chunks the nonce is fresh again and values repeat), and
the 11-byte big-endian counter equals the chunk count exactly when fewer
than 256 non-final chunks were sealed. -/
theorem chunk_counter_wraps (C : Crypto) (f : TestFile) (pts : List (List Nat))
    (h : f.nonce = List.replicate 12 0) :
    (∀ (g : TestFile) (pt : List Nat),
        (TestFile.PayloadChunk C g pt).nonce = g.nonce.set 10 ((g.nonce.getD 10 0 + 1) % 256))
    ∧ (chunksFold C f pts).nonce = List.replicate 10 0 ++ [pts.length % 256, 0]
    ∧ (beCounter (chunksFold C f pts).nonce = pts.length ↔ pts.length < 256) := by
  have h2 := chunksFold_nonce C pts f 0 (by omega) h
  rw [Nat.zero_add] at h2
  refine ⟨fun g pt => rfl, h2, ?_⟩
  rw [h2, beCounter_explicit]
  omega

/-- Witness for claim C9 at 256 empty chunks: the nonce returns to the
fresh value and the big-endian counter reading no longer matches. -/
theorem chunk_counter_wraps_witness :
    (chunksFold cETrivial file0 (List.replicate 256 [])).nonce
      = List.replicate 10 0 ++ [(List.replicate 256 ([] : List Nat)).length % 256, 0]
    ∧ ¬ ((List.replicate 256 ([] : List Nat)).length < 256) := by
  obtain ⟨-, h2, -⟩ := chunk_counter_wraps cETrivial file0 (List.replicate 256 []) rfl
  exact ⟨h2, by decide⟩

theorem indexByteAux_not_mem (l : List Nat) (b : Nat) (i : Nat) (h : b ∉ l) :
    indexByteAux l b i = -1 := by
  induction l generalizing i with
  | nil => rfl
  | cons c r ih =>
    simp only [List.mem_cons, not_or] at h
    rw [indexByteAux, if_neg (fun hc => h.1 hc.symm)]
    exact ih (i + 1) h.2

theorem indexByteAux_mem (l : List Nat) (b : Nat) (i : Nat) (h : b ∈ l) :
    ∃ j, j < l.length ∧ indexByteAux l b i = ((i + j : Nat) : Int) ∧ l.getD j 0 = b := by
  induction l generalizing i with
  | nil => simp at h
  | cons c r ih =>
    by_cases hc : c = b
    · refine ⟨0, by simp, ?_, by simp [hc]⟩
      rw [indexByteAux, if_pos hc]
      simp
    · have hb : b ∈ r := by
        rcases List.mem_cons.mp h with h1 | h2
        · exact absurd h1.symm hc
        · exact h2
      obtain ⟨j, hj1, hj2, hj3⟩ := ih (i + 1) hb
      refine ⟨j + 1, by simpa using hj1, ?_, by simpa using hj3⟩
      rw [indexByteAux, if_neg hc, hj2]
      congr 1
      omega

/-- Claim C10, amended: NotCanonicalBase64 is out of bounds exactly on
the empty string and on strings whose last byte is the slash (the final
alphabet symbol); on every other non-empty string it is total — a last
byte outside the base64 alphabet does not fault, because Go IndexByte
returns minus one and index zero of the alphabet is then read. -/
theorem notCanonicalBase64_domain (s : List Nat) :
    NotCanonicalBase64 s = none ↔ s = [] ∨ s.getLast? = some 47 := by
  rcases h : s.getLast? with - | last
  · have hnil : s = [] := by
      cases s with
      | nil => rfl
      | cons a t => simp [List.getLast?_concat] at h
    simp [NotCanonicalBase64, h, hnil]
  · have hne : s ≠ [] := by
      intro he
      rw [he] at h
      simp at h
    have heq : NotCanonicalBase64 s =
        match b64alphabet.get? (indexByte b64alphabet last + 1).toNat with
        | none => none
        | some c => some (s.dropLast ++ [c]) := by
      rw [NotCanonicalBase64, h]
    by_cases h47 : last = 47
    · subst h47
      have hidx : indexByte b64alphabet 47 = 63 := by decide
      have hget : b64alphabet.get? ((63 : Int) + 1).toNat = none := by decide
      rw [heq, hidx, hget]
      simp [h]
    · have hsome : ∃ c, b64alphabet.get? (indexByte b64alphabet last + 1).toNat = some c := by
        by_cases hmem : last ∈ b64alphabet
        · obtain ⟨j, hj1, hj2, hj3⟩ := indexByteAux_mem b64alphabet last 0 hmem
          have hj63 : j ≠ 63 := by
            intro he
            rw [he] at hj3
            exact h47 (by rw [← hj3]; decide)
          have hlen : b64alphabet.length = 64 := by decide
          have hjlt : j + 1 < 64 := by omega
          rw [indexByte, hj2]
          have hcast : (((0 + j : Nat) : Int) + 1).toNat = j + 1 := by omega
          rw [hcast]
          rcases hg : b64alphabet.get? (j + 1) with - | c
          · rw [List.get?_eq_none] at hg
            omega
          · exact ⟨c, rfl⟩
        · rw [indexByte, indexByteAux_not_mem b64alphabet last 0 hmem]
          exact ⟨65, by decide⟩
      obtain ⟨c, hc⟩ := hsome
      rw [heq, hc]
      simp [hne, h47]

/-- Counterexample to claim C10 as stated: byte 64 (an at-sign) is not a
base64 alphabet character, yet NotCanonicalBase64 is defined on the
one-byte string holding it and returns the string of byte 65: the
function is total on more inputs than the claim allows. -/
theorem notCanonicalBase64_counterexample :
    NotCanonicalBase64 [64] = some [65] ∧ ¬ (64 ∈ b64alphabet) := by
  constructor
  · decide
  · decide

theorem bodyWire_nil : bodyWire [] = [byteLF] := by
  rw [bodyWire, bodyLines_eq]
  simp [b64encode]

theorem ArgsLine_buf (f : TestFile) (args : List (List Nat)) :
    (f.ArgsLine args).buf
      = f.buf ++ List.intercalate [byteSpace] (bytesArrow :: args) ++ [byteLF] := by
  simp [TestFile.ArgsLine, TestFile.TextLine]

/-- Claim C4, amended: TestFile.X25519NoRecordIdentity emits a stanza of
type X25519 whose single argument is the unpadded base64 of
share = X25519(ephemeral, basepoint) and whose body wraps the
ChaCha20-Poly1305 sealing of the file key under an all-zero nonce with
wrap_key = HKDF-SHA256(ikm = secret, salt = share then recipient,
info = the X25519 label), where secret is X25519(ephemeral, recipient);
a library-reported all-zero shared secret is not rejected — the error is
discarded and the nil (empty) secret is fed to HKDF. -/
theorem x25519_stanza (C : Crypto) (f : TestFile) (identity : List Nat) :
    (TestFile.X25519NoRecordIdentity C f identity).buf
      = f.buf
        ++ List.intercalate [byteSpace]
             [bytesArrow, typeX25519,
              b64encode ((C.x25519 (f.rand.take 32) basepoint).getD [])]
        ++ [byteLF]
        ++ bodyWire (C.chacha20poly1305Seal
             (C.hkdfSHA256
               ((C.x25519 (f.rand.take 32) ((C.x25519 identity basepoint).getD [])).getD [])
               (((C.x25519 (f.rand.take 32) basepoint).getD [])
                 ++ ((C.x25519 identity basepoint).getD []))
               infoX25519 32)
             (List.replicate 12 0) f.fileKey) := by
  simp [TestFile.X25519NoRecordIdentity, TestFile.Rand, TestFile.AEADBody, Body_buf,
    ArgsLine_buf, TestFile.ArgsLine, TestFile.TextLine, List.append_assoc]

/-- Counterexample to claim C4's rejection clause as stated: with an
X25519 primitive reporting the all-zero shared secret on every input,
the generator still emits the stanza — the buffer grows — because the
error return of the library call is bound to the blank identifier. -/
theorem x25519_no_rejection_counterexample :
    cEZeroShare.x25519 (file0.rand.take 32) ((cEZeroShare.x25519 [1] basepoint).getD []) = none
    ∧ (TestFile.X25519NoRecordIdentity cEZeroShare file0 [1]).buf
      = [45, 62, 32, 88, 50, 53, 53, 49, 57, 32, 10, 10]
    ∧ [45, 62, 32, 88, 50, 53, 53, 49, 57, 32, 10, 10] ≠ file0.buf := by
  refine ⟨rfl, ?_, by decide⟩
  rw [x25519_stanza]
  show file0.buf ++ List.intercalate [byteSpace] [bytesArrow, typeX25519, b64encode []]
      ++ [byteLF] ++ bodyWire [] = _
  rw [bodyWire_nil]
  decide

/-- Claim C5: TestFile.ScryptNoRecordPassphrase emits a stanza with type
scrypt and args the base64 of a 16-byte salt drawn from the random
source and the decimal work factor, whose body wraps the
ChaCha20-Poly1305 sealing of the file key (all-zero nonce) under
wrap_key = scrypt(passphrase, salt = the scrypt label then the 16-byte
salt, N = 2 to the work factor, r = 8, p = 1, len = 32). -/
theorem scrypt_stanza (C : Crypto) (f : TestFile) (passphrase : List Nat)
    (workFactor : Nat) (key : List Nat)
    (hkey : C.scryptKey passphrase (infoScrypt ++ f.rand.take 16) (2 ^ workFactor) 8 1 32
      = some key) :
    (TestFile.ScryptNoRecordPassphrase C f passphrase workFactor).buf
      = f.buf
        ++ List.intercalate [byteSpace]
            [bytesArrow, typeScrypt, b64encode (f.rand.take 16), itoa workFactor]
        ++ [byteLF]
        ++ bodyWire (C.chacha20poly1305Seal key (List.replicate 12 0) f.fileKey) := by
  simp [TestFile.ScryptNoRecordPassphrase, TestFile.Rand, TestFile.AEADBody, Body_buf,
    ArgsLine_buf, TestFile.ArgsLine, TestFile.TextLine, hkey, List.append_assoc]

/-- Witness for claim C5 at a concrete passphrase and work factor 2
under the trivial crypto bundle. -/
theorem scrypt_stanza_witness :
    (TestFile.ScryptNoRecordPassphrase cETrivial file0 [112] 2).buf
      = file0.buf
        ++ List.intercalate [byteSpace]
            [bytesArrow, typeScrypt, b64encode (file0.rand.take 16), itoa 2]
        ++ [byteLF]
        ++ bodyWire (cETrivial.chacha20poly1305Seal (List.replicate 32 0)
            (List.replicate 12 0) file0.fileKey) :=
  scrypt_stanza cETrivial file0 [112] 2 (List.replicate 32 0) rfl

theorem unwrapPhase2_snd_cons (i : Callbacks) (fk : Option (List Nat)) (s : PStanza)
    (rest : List PStanza) (h1 : s.type ≠ typeFileKey) (h2 : s.type ≠ typeError)
    (h3 : s.type ≠ typeDone) :
    (unwrapPhase2 i fk (s :: rest)).2 = (unwrapPhase2 i fk rest).2 := by
  rw [unwrapPhase2]
  by_cases hm : s.type = typeMsg
  · rw [if_pos hm]
    cases i.displayMessage with
    | none => rfl
    | some cb =>
      cases hcb : cb s.body with
      | error a => simp only [hcb]
      | ok a => simp only [hcb]
  · rw [if_neg hm]
    by_cases hr : s.type = typeRequestSecret ∨ s.type = typeRequestPublic
    · rw [if_pos hr]
      cases i.requestValue with
      | none => rfl
      | some cb =>
        cases hcb : cb s.body (decide (s.type = typeRequestSecret)) with
        | error a => simp only [hcb]
        | ok a => simp only [hcb]
    · rw [if_neg hr, if_neg h1, if_neg h2, if_neg h3]

theorem unwrapPhase2_skip (i : Callbacks) (pre : List PStanza) (fk : Option (List Nat))
    (h : ∀ s ∈ pre, s.type ≠ typeFileKey ∧ s.type ≠ typeError ∧ s.type ≠ typeDone) :
    (unwrapPhase2 i fk (pre ++ [doneStanza])).2 = .ok fk := by
  induction pre with
  | nil =>
    rw [List.nil_append, unwrapPhase2]
    simp [doneStanza, typeDone, typeMsg, typeRequestSecret, typeRequestPublic,
      typeFileKey, typeError]
  | cons s pre ih =>
    obtain ⟨h1, h2, h3⟩ := h s (List.mem_cons_self s pre)
    rw [List.cons_append, unwrapPhase2_snd_cons i fk s _ h1 h2 h3]
    exact ih fun t ht => h t (List.mem_cons_of_mem s ht)

/-- Claim C3: Identity.Unwrap accepts a file-key stanza with index
argument the single token parsing to the decimal integer 0 and records
its body as the file key, answering ok; a file-key stanza whose args are
not exactly one token parsing to 0 yields the malformed error; a second
file-key stanza after one was recorded yields the duplicated error; and
a session that reaches done without any file-key stanza returns the
incorrect-identity error. -/
theorem unwrap_file_key_handling :
    (∀ (i : Callbacks) (body : List Nat) (rest : List PStanza),
        unwrapPhase2 i none ({ type := typeFileKey, args := [[48]], body := body } :: rest)
          = (okStanza :: (unwrapPhase2 i (some body) rest).1,
             (unwrapPhase2 i (some body) rest).2))
    ∧ (∀ (i : Callbacks) (fk : Option (List Nat)) (s : PStanza) (rest : List PStanza),
        s.type = typeFileKey →
        ¬ (s.args.length = 1 ∧ atoi (s.args.getD 0 []) = some 0) →
        unwrapPhase2 i fk (s :: rest) = ([], .error .malformedFileKey))
    ∧ (∀ (i : Callbacks) (fk0 : List Nat) (s : PStanza) (rest : List PStanza),
        s.type = typeFileKey → s.args.length = 1 → atoi (s.args.getD 0 []) = some 0 →
        unwrapPhase2 i (some fk0) (s :: rest) = ([], .error .duplicatedFileKey))
    ∧ (∀ (i : Callbacks) (body : List Nat),
        (IdentityUnwrap i
            [{ type := typeFileKey, args := [[48]], body := body }, doneStanza]).2
          = .ok body)
    ∧ (∀ (i : Callbacks) (pre : List PStanza),
        (∀ s ∈ pre, s.type ≠ typeFileKey ∧ s.type ≠ typeError ∧ s.type ≠ typeDone) →
        (IdentityUnwrap i (pre ++ [doneStanza])).2 = .error .incorrectIdentity) := by
  have haccept : ∀ (i : Callbacks) (body : List Nat) (rest : List PStanza),
      unwrapPhase2 i none ({ type := typeFileKey, args := [[48]], body := body } :: rest)
        = (okStanza :: (unwrapPhase2 i (some body) rest).1,
           (unwrapPhase2 i (some body) rest).2) := by
    intro i body rest
    have hat : atoi ([48] : List Nat) = some 0 := by decide
    rw [unwrapPhase2]
    simp [hat, typeFileKey, typeMsg, typeRequestSecret, typeRequestPublic, okStanza]
  refine ⟨haccept, ?_, ?_, ?_, ?_⟩
  · intro i fk s rest hty hbad
    rw [unwrapPhase2]
    rw [if_neg (by rw [hty]; decide), if_neg (by rw [hty]; decide), if_pos hty]
    by_cases hlen : s.args.length = 1
    · rcases hat : atoi (s.args.getD 0 []) with - | n
      · simp [hlen, hat]
      · have hn : n ≠ 0 := by
          intro h0
          exact hbad ⟨hlen, by rw [hat, h0]⟩
        simp [hlen, hat, hn]
    · simp [hlen]
  · intro i fk0 s rest hty hlen hat
    rw [unwrapPhase2]
    rw [if_neg (by rw [hty]; decide), if_neg (by rw [hty]; decide), if_pos hty,
      if_neg (show ¬ s.args.length ≠ 1 by omega)]
    simp only [hat]
    norm_num
  · intro i body
    have hdone : (unwrapPhase2 i (some body) [doneStanza]).2 = Except.ok (some body) := by
      rw [unwrapPhase2]
      simp [doneStanza, typeDone, typeMsg, typeRequestSecret, typeRequestPublic,
        typeFileKey, typeError]
    simp only [IdentityUnwrap, haccept i body [doneStanza], hdone]
  · intro i pre hpre
    simp only [IdentityUnwrap, unwrapPhase2_skip i pre none hpre]

/-- Witness for claim C3: acceptance of a concrete file-key stanza with
index token 0, and the incorrect-identity error when only done is sent. -/
theorem unwrap_file_key_handling_witness :
    unwrapPhase2 {} none ({ type := typeFileKey, args := [[48]], body := [7] } :: [doneStanza])
      = (okStanza :: (unwrapPhase2 {} (some [7]) [doneStanza]).1,
         (unwrapPhase2 {} (some [7]) [doneStanza]).2)
    ∧ (IdentityUnwrap {} ([] ++ [doneStanza])).2 = .error .incorrectIdentity := by
  obtain ⟨h1, -, -, -, h5⟩ := unwrap_file_key_handling
  exact ⟨h1 {} [7] [doneStanza], h5 {} [] (by simp)⟩

/-- Claim C7: during Recipient.Wrap every recipient-stanza from the
plugin must have at least two arguments with the first parsing to the
decimal integer 0; such a stanza is collected as a header stanza of type
args one and remaining args, with the received body, and ok is sent
back; otherwise the malformed-recipient-stanza error is returned; and a
loop ending with zero collected stanzas yields an error rather than an
empty list. -/
theorem wrap_recipient_stanza_handling :
    (∀ (r : Callbacks) (acc : List AgeStanza) (s : PStanza) (rest : List PStanza),
        s.type = typeRecipientStanza → 2 ≤ s.args.length →
        atoi (s.args.getD 0 []) = some 0 →
        wrapPhase2 r acc (s :: rest)
          = (okStanza :: (wrapPhase2 r
                (acc ++ [{ type := s.args.getD 1 [], args := s.args.drop 2,
                           body := s.body }]) rest).1,
             (wrapPhase2 r
                (acc ++ [{ type := s.args.getD 1 [], args := s.args.drop 2,
                           body := s.body }]) rest).2))
    ∧ (∀ (r : Callbacks) (acc : List AgeStanza) (s : PStanza) (rest : List PStanza),
        s.type = typeRecipientStanza →
        ¬ (2 ≤ s.args.length ∧ atoi (s.args.getD 0 []) = some 0) →
        wrapPhase2 r acc (s :: rest) = ([], .error .malformedRecipientStanza))
    ∧ (∀ (r : Callbacks) (input : List PStanza) (resp : List PStanza),
        wrapPhase2 r [] input = (resp, .ok []) →
        (RecipientWrap r input).2 = .error .emptyPluginResponse) := by
  refine ⟨?_, ?_, ?_⟩
  · intro r acc s rest hty hlen hat
    rw [wrapPhase2]
    rw [if_neg (by rw [hty]; decide), if_neg (by rw [hty]; decide), if_pos hty,
      if_neg (show ¬ s.args.length < 2 by omega)]
    simp only [hat]
    norm_num
  · intro r acc s rest hty hbad
    rw [wrapPhase2]
    rw [if_neg (by rw [hty]; decide), if_neg (by rw [hty]; decide), if_pos hty]
    by_cases hlen : s.args.length < 2
    · simp [hlen]
    · rcases hat : atoi (s.args.getD 0 []) with - | n
      · simp [hlen, hat]
      · have hn : n ≠ 0 := by
          intro h0
          exact hbad ⟨by omega, by rw [hat, h0]⟩
        simp [hlen, hat, hn]
  · intro r input resp h
    simp [RecipientWrap, h]

/-- Witness for claim C7: a concrete recipient-stanza with index token 0
and type token t is collected with ok sent back, and a session that only
sends done produces the empty-response error. -/
theorem wrap_recipient_stanza_handling_witness :
    wrapPhase2 {} []
        ({ type := typeRecipientStanza, args := [[48], [116]], body := [1] } :: [doneStanza])
      = (okStanza :: (wrapPhase2 {}
            ([] ++ [{ type := [116], args := [], body := [1] }]) [doneStanza]).1,
         (wrapPhase2 {}
            ([] ++ [{ type := [116], args := [], body := [1] }]) [doneStanza]).2)
    ∧ (RecipientWrap {} [doneStanza]).2 = .error .emptyPluginResponse := by
  obtain ⟨h1, -, h3⟩ := wrap_recipient_stanza_handling
  refine ⟨?_, h3 {} [doneStanza] [] (by rfl)⟩
  exact h1 {} [] { type := typeRecipientStanza, args := [[48], [116]], body := [1] }
    [doneStanza] rfl (by decide) (by decide)

end Age
